import Mathlib

/-!
Verification of the matching core of the dental-clinic chatbot
(`web_app.py`): text normalization (`normalize_text`), the four-tier
knowledge-base lookup (`find_in_knowledge_base`), menu-topic resolution and
the `/chat` router (`chat`), the `/suggestions/<topic>` route
(`get_suggestions_by_topic`), and the external-generator wrapper
(`call_yandex_gpt`).

Strings are modelled as Lean `String` (lists of Unicode characters).
Python character classes are modelled on the character ranges the
application actually uses: the regex class `\w` (letters, digits and the
underscore, with Unicode letters covered for ASCII and the Cyrillic block
U+0400 - U+04FF), the class `\s` (ASCII whitespace), and `str.lower`
(ASCII and Cyrillic case mapping, identity elsewhere).  Python dictionaries
(`KNOWLEDGE_BASE`, `suggestionMap`) are modelled as association lists in
iteration (insertion) order; `dict.get`/`in` is first-match lookup.  The
network is modelled by a trace of per-attempt HTTP outcomes.
-/

/-- Model of Python `str.lower` for a single character, restricted to ASCII
letters and the Cyrillic block (U+0400 - U+042F); identity on every other
character.  These are the only cased characters occurring in the
application's data. -/
def toLowerChar (c : Char) : Char :=
  if 65 ≤ c.toNat ∧ c.toNat ≤ 90 then Char.ofNat (c.toNat + 32)
  else if 1040 ≤ c.toNat ∧ c.toNat ≤ 1071 then Char.ofNat (c.toNat + 32)
  else if 1024 ≤ c.toNat ∧ c.toNat ≤ 1039 then Char.ofNat (c.toNat + 80)
  else c

/-- Model of the Python regex class `\s` (whitespace): space, tab, newline,
carriage return, vertical tab, form feed. -/
def isSpaceChar (c : Char) : Bool :=
  decide (c.toNat = 32 ∨ c.toNat = 9 ∨ c.toNat = 10 ∨ c.toNat = 13 ∨
    c.toNat = 11 ∨ c.toNat = 12)

/-- Model of the Python regex class `\w` (word characters): ASCII digits,
ASCII letters, the underscore (code 95), and the Cyrillic block
U+0400 - U+04FF (codes 1024 - 1279, all of which are Unicode letters). -/
def isWordChar (c : Char) : Bool :=
  decide ((48 ≤ c.toNat ∧ c.toNat ≤ 57) ∨ (65 ≤ c.toNat ∧ c.toNat ≤ 90) ∨
    (97 ≤ c.toNat ∧ c.toNat ≤ 122) ∨ c.toNat = 95 ∨
    (1024 ≤ c.toNat ∧ c.toNat ≤ 1279))

/-- A character survives `re.sub(r'[^\w\s]', '', text)` iff it is a word
character or whitespace. -/
def keepChar (c : Char) : Bool :=
  isWordChar c || isSpaceChar c

/-- `re.sub(r'[^\w\s]', '', text)`: drop every character that is neither a
word character nor whitespace. -/
def stripPunct (l : List Char) : List Char :=
  l.filter keepChar

/-- `re.sub(r'\s+', ' ', text)`: replace every maximal run of whitespace
characters by a single space. -/
def collapseWS : List Char → List Char
  | [] => []
  | [c] => if isSpaceChar c then [' '] else [c]
  | c :: d :: rest =>
    if isSpaceChar c then
      (if isSpaceChar d then collapseWS (d :: rest)
       else ' ' :: collapseWS (d :: rest))
    else c :: collapseWS (d :: rest)

/-- Python `str.strip()`: drop leading and trailing whitespace. -/
def trimSpaces (l : List Char) : List Char :=
  ((l.dropWhile isSpaceChar).reverse.dropWhile isSpaceChar).reverse

/-- The character-list core of `normalize_text`: lower-case, strip
non-word/non-space characters, collapse whitespace runs, strip ends. -/
def normCore (l : List Char) : List Char :=
  trimSpaces (collapseWS (stripPunct (l.map toLowerChar)))

/-- `normalize_text` (web_app.py lines 356-371): guard `if not text` (the
empty string is the only falsy `String`; `None` is not representable here),
then lower-case, remove punctuation, collapse whitespace, strip. -/
def normalize_text (s : String) : String :=
  if s = "" then "" else String.mk (normCore s.data)

/-- Python `str.lower` on a whole string. -/
def pyLower (s : String) : String :=
  String.mk (s.data.map toLowerChar)

/-- Python `str.strip` on a whole string (used on the incoming chat
message). -/
def pyStrip (s : String) : String :=
  String.mk (trimSpaces s.data)

/-- Auxiliary for `containsSub`: is the first list a prefix of the
second? -/
def leadsList : List Char → List Char → Bool
  | [], _ => true
  | _ :: _, [] => false
  | c :: cs, d :: ds => c = d && leadsList cs ds

/-- Model of the Python substring test `needle in haystack`: the needle
occurs contiguously in the haystack. -/
def containsSub (needle : List Char) : List Char → Bool
  | [] => needle.isEmpty
  | d :: rest => leadsList needle (d :: rest) || containsSub needle rest

/-- String version of the Python substring test `a in b`. -/
def substrB (a b : String) : Bool :=
  containsSub a.data b.data

/-- Auxiliary for `splitPy`: accumulate the current word (reversed). -/
def splitPyAux : List Char → List Char → List String
  | [], acc => if acc.isEmpty then [] else [String.mk acc.reverse]
  | c :: rest, acc =>
    if isSpaceChar c then
      (if acc.isEmpty then splitPyAux rest []
       else String.mk acc.reverse :: splitPyAux rest [])
    else splitPyAux rest (c :: acc)

/-- Model of Python `str.split()` with no argument: split on runs of
whitespace, discarding empty pieces. -/
def splitPy (s : String) : List String :=
  splitPyAux s.data []

/-- Python `set(s.split())`, as a duplicate-free list; only its membership
and cardinality are ever used. -/
def wordSet (s : String) : List String :=
  (splitPy s).dedup

/-- `len(a.intersection(b))` for word sets: count the members of the
(duplicate-free) first list that occur in the second. -/
def interCount (qws kws : List String) : Nat :=
  (qws.filter (fun w => decide (w ∈ kws))).length

/-- Python `dict.get` / `dict[...]` / `in` on an association list in
iteration order: value of the first matching key. -/
def dictGet {α : Type} : List (String × α) → String → Option α
  | [], _ => none
  | kv :: rest, key => if kv.1 = key then some kv.2 else dictGet rest key

/-- Tier 2 of `find_in_knowledge_base` (lines 382-384): first key whose
normalized form equals the normalized question. -/
def findNormEq : List (String × String) → String → Option String
  | [], _ => none
  | kv :: rest, nq =>
    if normalize_text kv.1 = nq then some kv.2 else findNormEq rest nq

/-- Tier 3 of `find_in_knowledge_base` (lines 386-390): first key whose
normalized form contains, or is contained in, the normalized question. -/
def findSubstr : List (String × String) → String → Option String
  | [], _ => none
  | kv :: rest, nq =>
    if substrB (normalize_text kv.1) nq || substrB nq (normalize_text kv.1) then
      some kv.2
    else findSubstr rest nq

/-- The per-key overlap score of tier 4 (lines 398-404):
`len(question_words.intersection(key_words))`. -/
def overlapScore (qws : List String) (key : String) : Nat :=
  interCount qws (wordSet (normalize_text key))

/-- One iteration of the tier-4 loop (lines 398-409).  The Python guard is
`score > best_score and score >= max(1, len(question_words) * 0.5)`; for
integer `score` and `n = len(question_words)` the float comparison
`score >= max(1, n * 0.5)` holds exactly when `1 ≤ score ∧ n ≤ 2 * score`. -/
def tier4Step (qws : List String) (best : Option String × Nat)
    (kv : String × String) : Option String × Nat :=
  let score := overlapScore qws kv.1
  if best.2 < score ∧ 1 ≤ score ∧ qws.length ≤ 2 * score then
    (some kv.2, score)
  else best

/-- The accumulating tier-4 loop over the whole base (lines 395-409),
started from `best_match = None`, `best_score = 0`. -/
def tier4Fold (kb : List (String × String)) (qws : List String) :
    Option String × Nat :=
  kb.foldl (tier4Step qws) (none, 0)

/-- Tier 4 of `find_in_knowledge_base` (lines 392-412): only attempted when
the question's word set has more than one element; afterwards the Python
truthiness test `if best_match:` drops both `None` and the empty string. -/
def tier4 (kb : List (String × String)) (nq : String) : Option String :=
  let qws := wordSet nq
  if 1 < qws.length then
    match (tier4Fold kb qws).1 with
    | some v => if v = "" then none else some v
    | none => none
  else none

/-- `find_in_knowledge_base` (lines 373-414): raw-key hit, then normalized
equality, then substring containment, then word overlap, else `None`. -/
def find_in_knowledge_base (kb : List (String × String)) (question : String) :
    Option String :=
  let nq := normalize_text question
  match dictGet kb question with
  | some v => some v
  | none =>
    match findNormEq kb nq with
    | some v => some v
    | none =>
      match findSubstr kb nq with
      | some v => some v
      | none => tier4 kb nq

/-- A menu item as used by the chat route: its trigger question and the
value of `item.get("suggestion_topic")` (absent field = `none`). -/
structure MenuItem where
  question : String
  suggestion_topic : Option String
deriving DecidableEq

/-- One contextual suggestion: `{"text": ..., "question": ..., "answer":
...}`. -/
structure Suggestion where
  text : String
  question : String
  answer : String
deriving DecidableEq

/-- A suggestion as returned to the chat client: text and question only
(lines 704 and 721). -/
structure SuggestionOut where
  text : String
  question : String
deriving DecidableEq

/-- The JSON body returned by the `/chat` route. -/
structure ChatResult where
  response : String
  source : String
  suggestions : List SuggestionOut
deriving DecidableEq

/-- The final value of the `menu_topic` variable of `chat` (lines 692-699):
the `suggestion_topic` field of the first menu item whose normalized
trigger equals the normalized question; `none` both when no item matches
and when the matching item lacks the field. -/
def resolve_menu_topic : List MenuItem → String → Option String
  | [], _ => none
  | it :: rest, q =>
    if normalize_text it.question = normalize_text q then it.suggestion_topic
    else resolve_menu_topic rest q

/-- Strip suggestions down to text and question (lines 704, 721). -/
def stripOut (l : List Suggestion) : List SuggestionOut :=
  l.map (fun s => ⟨s.text, s.question⟩)

/-- The answer-in-suggestions loop of `chat` step 4 (lines 728-732): answer
of the first suggestion whose normalized trigger equals the normalized
question. -/
def findSuggestionAnswer : List Suggestion → String → Option String
  | [], _ => none
  | s :: rest, q =>
    if normalize_text s.question = normalize_text q then some s.answer
    else findSuggestionAnswer rest q

/-- Outcome of one HTTP attempt of `call_yandex_gpt` (lines 1524-1537).
`ok (some t)` is a 200 response whose body carries text `t`; `ok none` is a
200 response with a malformed body (the field access raises); `status c` is
a non-200 status code; `netError` is a `requests` exception. -/
inductive HttpResult where
  | ok (text : Option String)
  | status (code : Nat)
  | netError
deriving DecidableEq

/-- The retry loop of `call_yandex_gpt` over the remaining attempts.
`Except.error ()` models an exception escaping the function (only the
malformed-body `KeyError` can: the `except` clause catches request
exceptions only). -/
def gptLoop : List HttpResult → Except Unit String
  | [] => Except.ok ("❌ Не удалось получить ответ. Попробуйте позже.")
  | r :: rest =>
    match r with
    | HttpResult.ok (some t) => Except.ok t
    | HttpResult.ok none => Except.error ()
    | HttpResult.status c =>
      if c = 401 then Except.ok ("❌ Ошибка авторизации. Проверьте API-ключ.")
      else if c = 400 then Except.ok ("❌ Ошибка параметров. Проверьте folder_id.")
      else gptLoop rest
    | HttpResult.netError => gptLoop rest

/-- `call_yandex_gpt` (lines 1494-1538) as a function of the trace of HTTP
outcomes: three attempts, then the final fallback string. -/
def call_yandex_gpt (outcomes : List HttpResult) : Except Unit String :=
  gptLoop (outcomes.take 3)

/-- The fixed reply of `chat` when the stripped message is empty
(line 688). -/
def emptyPrompt : String := "Пожалуйста, задайте вопрос."

/-- The reply of the outer `except` clause of `chat` (line 762). -/
def chatCrash : ChatResult := ⟨"❌ Произошла ошибка", "error", []⟩

/-- The escalation step shared by chat steps 2 and 6: call the generator;
a raised exception is caught by the outer `try` of `chat`, which returns
`chatCrash`. -/
def chat_gpt_step (gpt : List HttpResult) (suggestions : List SuggestionOut) :
    ChatResult :=
  match call_yandex_gpt gpt with
  | Except.ok r => ⟨r, "yandex_gpt", suggestions⟩
  | Except.error _ => chatCrash

/-- Chat steps 5-6 (lines 734-745): knowledge-base lookup, whose falsy
results (`None` and the empty string) escalate to the generator. -/
def chat_kb_step (kb : List (String × String)) (gpt : List HttpResult)
    (question : String) (suggestions : List SuggestionOut) : ChatResult :=
  match find_in_knowledge_base kb question with
  | some a =>
    if a = "" then chat_gpt_step gpt suggestions
    else ⟨a, "knowledge_base", suggestions⟩
  | none => chat_gpt_step gpt suggestions

/-- Chat step 2 (lines 701-717), the no-topic branch: default suggestions,
then `find_in_knowledge_base(question) or call_yandex_gpt(question)` with
the source recomputed by the same truthiness test. -/
def chat_default (kb : List (String × String))
    (sugMap : List (String × List Suggestion)) (gpt : List HttpResult)
    (question : String) : ChatResult :=
  let suggestions := stripOut ((dictGet sugMap ("default")).getD [])
  chat_kb_step kb gpt question suggestions

/-- Chat steps 3-6 (lines 719-756), the resolved-topic branch: suggestions
of the resolved topic (no fallback), suggestion-map answer, then
knowledge base, then generator; falsy answers fall through. -/
def chat_topic (kb : List (String × String))
    (sugMap : List (String × List Suggestion)) (gpt : List HttpResult)
    (question : String) (t : String) : ChatResult :=
  let topicSuggestions := (dictGet sugMap t).getD []
  let suggestions := stripOut topicSuggestions
  match findSuggestionAnswer topicSuggestions question with
  | some a =>
    if a = "" then chat_kb_step kb gpt question suggestions
    else ⟨a, "suggestion_map", suggestions⟩
  | none => chat_kb_step kb gpt question suggestions

/-- The `/chat` route (lines 678-762).  The incoming message is stripped;
an empty result returns the prompt; `if not menu_topic` sends both `None`
and the empty string to the default branch. -/
def chat (kb : List (String × String)) (menu : List MenuItem)
    (sugMap : List (String × List Suggestion)) (gpt : List HttpResult)
    (message : String) : ChatResult :=
  let question := pyStrip message
  if question = "" then ⟨emptyPrompt, "error", []⟩
  else
    match resolve_menu_topic menu question with
    | none => chat_default kb sugMap gpt question
    | some t =>
      if t = "" then chat_default kb sugMap gpt question
      else chat_topic kb sugMap gpt question t

/-- The `/suggestions/<topic>` route (lines 838-850): suggestions of the
lower-cased topic, falling back to the `"default"` topic when the result
is empty or the topic is absent. -/
def get_suggestions_by_topic (sugMap : List (String × List Suggestion))
    (topic : String) : List Suggestion :=
  let s := (dictGet sugMap (pyLower topic)).getD []
  if s = [] then (dictGet sugMap ("default")).getD [] else s

/-- Tier 1 of the spec's resolution order, stated via `List.find?`: the
value of the raw question when it is a key of the base. -/
def tier1Find (kb : List (String × String)) (q : String) : Option String :=
  (kb.find? (fun kv => decide (kv.1 = q))).map (fun kv => kv.2)

/-- Tier 2 of the spec's resolution order, stated via `List.find?`: the
value of the first key whose normalized form equals the normalized
question. -/
def tier2Find (kb : List (String × String)) (q : String) : Option String :=
  (kb.find? (fun kv => decide (normalize_text kv.1 = normalize_text q))).map
    (fun kv => kv.2)

/-- Tier 3 of the spec's resolution order, stated via `List.find?`: the
value of the first key whose normalized form is a substring of the
normalized question or vice versa. -/
def tier3Find (kb : List (String × String)) (q : String) : Option String :=
  (kb.find? (fun kv =>
    substrB (normalize_text kv.1) (normalize_text q) ||
    substrB (normalize_text q) (normalize_text kv.1))).map (fun kv => kv.2)

/-- The four-tier resolution order exactly as claim C1 states it: first hit
wins, tier 4 being the word-overlap tier, otherwise NotFound (`none`). -/
def lookupTiered (kb : List (String × String)) (q : String) : Option String :=
  (tier1Find kb q).orElse (fun _ =>
    (tier2Find kb q).orElse (fun _ =>
      (tier3Find kb q).orElse (fun _ => tier4 kb (normalize_text q))))

/-- The qualifying-score maximum tracked by the tier-4 loop: the maximum of
the start value and every qualifying score in the list. -/
def t4max (qws : List String) (kb : List (String × String)) (s : Nat) : Nat :=
  kb.foldl (fun m kv =>
    let sc := overlapScore qws kv.1
    if 1 ≤ sc ∧ qws.length ≤ 2 * sc then Nat.max m sc else m) s

/-- The word-overlap tier exactly as claim C2 words it: attempted only when
the question's word set has more than one element; a candidate qualifies
iff `score >= max(1, ceil(0.5 * questionWordCount))` (word counts are the
cardinalities of the word sets); the qualifying candidate with the
strictly highest score is returned, ties kept by the first candidate in
base iteration order.  Written from the claim, to be compared with the
code's `tier4`. -/
def tier4SpecClaim (kb : List (String × String)) (question : String) :
    Option String :=
  let nq := normalize_text question
  let qws := wordSet nq
  if qws.length ≤ 1 then none
  else
    let cands := (kb.map (fun kv => (kv.2, overlapScore qws kv.1))).filter
      (fun p => decide (Nat.max 1 ((qws.length + 1) / 2) ≤ p.2))
    (cands.find? (fun p =>
      decide (p.2 = cands.foldl (fun m p2 => Nat.max m p2.2) 0))).map
      (fun p => p.1)

/-- The normalizer exactly as claim C3 words it: lower-case, strip every
character that is not a letter, a digit, or whitespace (so, unlike the
code's `\w`, the underscore is stripped), collapse whitespace runs, trim.
Written from the claim, to be compared with the code's `normalize_text`. -/
def normalizeSpecClaim (s : String) : String :=
  if s = "" then ""
  else
    String.mk (trimSpaces (collapseWS ((s.data.map toLowerChar).filter
      (fun c => (isWordChar c && !(decide (c.toNat = 95))) || isSpaceChar c))))

/-- Topic resolution exactly as claim C6 words it, via `List.find?`: the
`suggestion_topic` of the first menu item whose normalized trigger equals
the normalized question, else `none`. -/
def resolveTopicSpec (menu : List MenuItem) (q : String) : Option String :=
  match menu.find? (fun it =>
    decide (normalize_text it.question = normalize_text q)) with
  | some it => it.suggestion_topic
  | none => none

/-- The three strings `call_yandex_gpt` produces when every attempt fails
without raising: auth failure, parameter/quota failure, retries
exhausted. -/
def gptApologies : List String :=
  ["❌ Ошибка авторизации. Проверьте API-ключ.",
   "❌ Ошибка параметров. Проверьте folder_id.",
   "❌ Не удалось получить ответ. Попробуйте позже."]

/-- An HTTP outcome that is a failure: anything except a 200 response with
a well-formed body. -/
def isGptFailure : HttpResult → Bool
  | HttpResult.ok (some _) => false
  | HttpResult.ok none => true
  | HttpResult.status _ => true
  | HttpResult.netError => true

/-- The four source tags claim C7 asserts for the `/chat` output. -/
def claimedSources : List String :=
  ["knowledge_base", "suggestion_map", "external_generator", "error"]

/-- The four source tags the `/chat` route actually emits. -/
def actualSources : List String :=
  ["knowledge_base", "suggestion_map", "yandex_gpt", "error"]

theorem char_eq_of_toNat {a b : Char} (h : a.toNat = b.toNat) : a = b :=
  Char.ext (UInt32.ext h)

theorem char_toNat_ofNat (n : Nat) (h : n < 55296) : (Char.ofNat n).toNat = n := by
  rw [Char.ofNat, dif_pos (Or.inl h : Nat.isValidChar n)]
  simp only [Char.ofNatAux, Char.toNat, UInt32.ofNat', UInt32.toNat]
  simp [Fin.val]

theorem toLowerChar_toNat (c : Char) :
    (toLowerChar c).toNat =
      if 65 ≤ c.toNat ∧ c.toNat ≤ 90 then c.toNat + 32
      else if 1040 ≤ c.toNat ∧ c.toNat ≤ 1071 then c.toNat + 32
      else if 1024 ≤ c.toNat ∧ c.toNat ≤ 1039 then c.toNat + 80
      else c.toNat := by
  unfold toLowerChar
  split_ifs with h1 h2 h3 <;> first | rfl | (rw [char_toNat_ofNat] ; omega)

theorem toLowerChar_idem (c : Char) :
    toLowerChar (toLowerChar c) = toLowerChar c := by
  apply char_eq_of_toNat
  rw [toLowerChar_toNat, toLowerChar_toNat]
  split_ifs <;> omega

theorem isSpaceChar_iff (c : Char) :
    isSpaceChar c = true ↔
      (c.toNat = 32 ∨ c.toNat = 9 ∨ c.toNat = 10 ∨ c.toNat = 13 ∨
        c.toNat = 11 ∨ c.toNat = 12) := by
  simp [isSpaceChar]

theorem isWordChar_iff (c : Char) :
    isWordChar c = true ↔
      ((48 ≤ c.toNat ∧ c.toNat ≤ 57) ∨ (65 ≤ c.toNat ∧ c.toNat ≤ 90) ∨
        (97 ≤ c.toNat ∧ c.toNat ≤ 122) ∨ c.toNat = 95 ∨
        (1024 ≤ c.toNat ∧ c.toNat ≤ 1279)) := by
  simp [isWordChar]

theorem isSpaceChar_toLowerChar (c : Char) :
    isSpaceChar (toLowerChar c) = isSpaceChar c := by
  simp only [isSpaceChar, toLowerChar_toNat]
  rw [decide_eq_decide]
  split_ifs <;> omega

theorem space_not_word (c : Char) (h : isSpaceChar c = true) :
    isWordChar c = false := by
  rw [isSpaceChar_iff] at h
  rw [Bool.eq_false_iff, Ne, isWordChar_iff]
  omega

theorem word_not_space (c : Char) (h : isWordChar c = true) :
    isSpaceChar c = false := by
  rw [isWordChar_iff] at h
  rw [Bool.eq_false_iff, Ne, isSpaceChar_iff]
  omega

theorem isWordChar_toLowerChar (c : Char) :
    isWordChar (toLowerChar c) = isWordChar c := by
  simp only [isWordChar, toLowerChar_toNat]
  rw [decide_eq_decide]
  split_ifs <;> omega

theorem toLowerChar_of_space (c : Char) (h : isSpaceChar c = true) :
    toLowerChar c = c := by
  rw [isSpaceChar_iff] at h
  apply char_eq_of_toNat
  rw [toLowerChar_toNat]
  split_ifs <;> omega

theorem space_char_toNat : (' ' : Char).toNat = 32 := rfl

theorem isSpaceChar_space : isSpaceChar ' ' = true := by decide

theorem collapseWS_nil : collapseWS [] = [] := rfl

theorem collapseWS_singleton (c : Char) :
    collapseWS [c] = if isSpaceChar c then [' '] else [c] := rfl

theorem collapseWS_cons_nonspace (d : Char) (rest : List Char)
    (h : isSpaceChar d = false) :
    collapseWS (d :: rest) = d :: collapseWS rest := by
  cases rest <;> simp [collapseWS, h]

theorem collapseWS_cons_space_space (c d : Char) (rest : List Char)
    (hc : isSpaceChar c = true) (hd : isSpaceChar d = true) :
    collapseWS (c :: d :: rest) = collapseWS (d :: rest) := by
  simp [collapseWS, hc, hd]

theorem collapseWS_cons_space_nonspace (c d : Char) (rest : List Char)
    (hc : isSpaceChar c = true) (hd : isSpaceChar d = false) :
    collapseWS (c :: d :: rest) = ' ' :: d :: collapseWS rest := by
  simp [collapseWS, hc, hd, collapseWS_cons_nonspace d rest hd]

theorem collapseWS_mem (l : List Char) :
    ∀ c ∈ collapseWS l, c = ' ' ∨ (isSpaceChar c = false ∧ c ∈ l) := by
  induction l using collapseWS.induct with
  | case1 => intro c hc; simp [collapseWS] at hc
  | case2 c h =>
    intro e he
    rw [collapseWS_singleton, if_pos h] at he
    simp at he
    exact Or.inl he
  | case3 c h =>
    intro e he
    rw [collapseWS_singleton, if_neg h] at he
    simp at he
    subst he
    right
    exact ⟨by simpa using h, by simp⟩
  | case4 c d rest hc hd ih =>
    intro e he
    rw [collapseWS_cons_space_space c d rest hc hd] at he
    rcases ih e he with h1 | h1
    · exact Or.inl h1
    · exact Or.inr ⟨h1.1, by simp [h1.2]⟩
  | case5 c d rest hc hd ih =>
    intro e he
    rw [collapseWS_cons_space_nonspace c d rest hc (by simpa using hd),
      List.mem_cons, List.mem_cons] at he
    rcases he with he | he | he
    · exact Or.inl he
    · subst he
      exact Or.inr ⟨by simpa using hd, by simp⟩
    · rcases ih e (by simp [collapseWS_cons_nonspace d rest (by simpa using hd), he]) with h1 | h1
      · exact Or.inl h1
      · exact Or.inr ⟨h1.1, by simp [h1.2]⟩
  | case6 c d rest hc ih =>
    intro e he
    rw [collapseWS_cons_nonspace c (d :: rest) (by simpa using hc),
      List.mem_cons] at he
    rcases he with he | he
    · subst he
      exact Or.inr ⟨by simpa using hc, by simp⟩
    · rcases ih e he with h1 | h1
      · exact Or.inl h1
      · exact Or.inr ⟨h1.1, by simp [h1.2]⟩

theorem collapseWS_head_nonspace (d : Char) (rest : List Char)
    (h : isSpaceChar d = false) :
    (collapseWS (d :: rest)).head? = some d := by
  rw [collapseWS_cons_nonspace d rest h]
  rfl

theorem collapseWS_chain (l : List Char) :
    List.Chain' (fun a b => ¬(isSpaceChar a = true ∧ isSpaceChar b = true))
      (collapseWS l) := by
  induction l using collapseWS.induct with
  | case1 => simp [collapseWS]
  | case2 c h => rw [collapseWS_singleton, if_pos h]; simp
  | case3 c h => rw [collapseWS_singleton, if_neg h]; simp
  | case4 c d rest hc hd ih => rw [collapseWS_cons_space_space c d rest hc hd]; exact ih
  | case5 c d rest hc hd ih =>
    have hd' : isSpaceChar d = false := by simpa using hd
    rw [collapseWS_cons_space_nonspace c d rest hc hd']
    rw [collapseWS_cons_nonspace d rest hd'] at ih
    apply List.Chain'.cons
    · intro hcon
      rw [hd'] at hcon
      simp at hcon
    · exact ih
  | case6 c d rest hc ih =>
    have hc' : isSpaceChar c = false := by simpa using hc
    rw [collapseWS_cons_nonspace c (d :: rest) hc']
    rcases h2 : collapseWS (d :: rest) with _ | ⟨e, tail⟩
    · simp
    · rw [← h2]
      apply List.chain'_cons'.mpr
      constructor
      · intro y _
        rw [hc']
        simp
      · exact ih

theorem collapseWS_eq_self (l : List Char)
    (h1 : ∀ c ∈ l, isSpaceChar c = true → c = ' ')
    (h2 : List.Chain' (fun a b => ¬(a = ' ' ∧ b = ' ')) l) :
    collapseWS l = l := by
  induction l using collapseWS.induct with
  | case1 => rfl
  | case2 c h =>
    rw [collapseWS_singleton, if_pos h, h1 c (by simp) h]
  | case3 c h =>
    rw [collapseWS_singleton, if_neg h]
  | case4 c d rest hc hd ih =>
    exfalso
    have ec : c = ' ' := h1 c (by simp) hc
    have ed : d = ' ' := h1 d (by simp) hd
    rcases List.chain'_cons.mp h2 with ⟨hcd, _⟩
    exact hcd ⟨ec, ed⟩
  | case5 c d rest hc hd ih =>
    have hd' : isSpaceChar d = false := by simpa using hd
    rw [collapseWS_cons_space_nonspace c d rest hc hd', h1 c (by simp) hc]
    have : collapseWS (d :: rest) = d :: rest := by
      apply ih
      · intro e he hsp
        exact h1 e (by simp [he]) hsp
      · exact (List.chain'_cons.mp h2).2
    rw [collapseWS_cons_nonspace d rest hd'] at this
    rw [List.cons.injEq] at this
    rw [this.2]
  | case6 c d rest hc ih =>
    have hc' : isSpaceChar c = false := by simpa using hc
    rw [collapseWS_cons_nonspace c (d :: rest) hc']
    rw [ih (fun e he hsp => h1 e (by simp [he]) hsp) (List.chain'_cons.mp h2).2]

theorem collapseWS_filter (l : List Char) :
    (collapseWS l).filter (fun c => !isSpaceChar c) =
      l.filter (fun c => !isSpaceChar c) := by
  induction l using collapseWS.induct with
  | case1 => rfl
  | case2 c h =>
    rw [collapseWS_singleton, if_pos h]
    simp [List.filter, h, isSpaceChar_space]
  | case3 c h =>
    have h' : isSpaceChar c = false := by simpa using h
    rw [collapseWS_singleton, if_neg h]
  | case4 c d rest hc hd ih =>
    rw [collapseWS_cons_space_space c d rest hc hd, ih]
    simp [List.filter_cons, hc]
  | case5 c d rest hc hd ih =>
    have hd' : isSpaceChar d = false := by simpa using hd
    rw [collapseWS_cons_space_nonspace c d rest hc hd',
      collapseWS_cons_nonspace d rest hd'] at *
    simp [List.filter_cons, hc, hd', isSpaceChar_space] at *
    exact ih
  | case6 c d rest hc ih =>
    have hc' : isSpaceChar c = false := by simpa using hc
    rw [collapseWS_cons_nonspace c (d :: rest) hc']
    simp [List.filter_cons, hc', ih]

theorem dropWhile_head_false {p : Char → Bool} :
    ∀ (l : List Char) (c : Char), (l.dropWhile p).head? = some c → p c = false := by
  intro l
  induction l with
  | nil => intro c hc; simp at hc
  | cons d rest ih =>
    intro c hc
    rw [List.dropWhile_cons] at hc
    by_cases hd : p d = true
    · rw [if_pos hd] at hc
      exact ih c hc
    · rw [if_neg hd] at hc
      simp at hc
      rw [← hc]
      simpa using hd

theorem dropWhile_mem {p : Char → Bool} {l : List Char} {c : Char}
    (h : c ∈ l.dropWhile p) : c ∈ l := by
  induction l with
  | nil => simpa using h
  | cons d rest ih =>
    rw [List.dropWhile_cons] at h
    by_cases hd : p d = true
    · rw [if_pos hd] at h
      exact List.mem_cons_of_mem d (ih h)
    · rw [if_neg hd] at h
      exact h

theorem dropWhile_chain {p : Char → Bool} {R : Char → Char → Prop}
    {l : List Char} (h : List.Chain' R l) : List.Chain' R (l.dropWhile p) := by
  induction l with
  | nil => simpa using h
  | cons d rest ih =>
    rw [List.dropWhile_cons]
    by_cases hd : p d = true
    · rw [if_pos hd]
      exact ih h.tail
    · rw [if_neg hd]
      exact h

theorem dropWhile_filter_neg {p : Char → Bool} (l : List Char) :
    (l.dropWhile p).filter (fun c => !p c) = l.filter (fun c => !p c) := by
  induction l with
  | nil => rfl
  | cons d rest ih =>
    rw [List.dropWhile_cons]
    by_cases hd : p d = true
    · rw [if_pos hd, ih, List.filter_cons]
      simp [hd]
    · rw [if_neg hd]

theorem dropWhile_eq_self {p : Char → Bool} {l : List Char}
    (h : ∀ c, l.head? = some c → p c = false) : l.dropWhile p = l := by
  cases l with
  | nil => rfl
  | cons d rest =>
    rw [List.dropWhile_cons, if_neg]
    rw [h d rfl]
    simp

theorem dropWhile_getLast {p : Char → Bool} :
    ∀ (l : List Char), l.dropWhile p ≠ [] → (l.dropWhile p).getLast? = l.getLast? := by
  intro l
  induction l with
  | nil => intro h; simp at h
  | cons d rest ih =>
    intro h
    rw [List.dropWhile_cons]
    by_cases hd : p d = true
    · rw [List.dropWhile_cons, if_pos hd] at h
      rw [if_pos hd, ih h]
      have hrest : rest ≠ [] := by
        intro he
        subst he
        simp at h
      cases rest with
      | nil => exact absurd rfl hrest
      | cons e tail => rw [List.getLast?_cons_cons]
    · rw [if_neg hd]

theorem chain_reverse_of_symm {R : Char → Char → Prop}
    (hsymm : ∀ a b, R a b → R b a) {l : List Char} (h : List.Chain' R l) :
    List.Chain' R l.reverse :=
  List.chain'_reverse.mpr (h.imp (fun a b hab => hsymm a b hab))

theorem trimSpaces_head (l : List Char) (c : Char)
    (h : (trimSpaces l).head? = some c) : isSpaceChar c = false := by
  unfold trimSpaces at h
  rw [List.head?_reverse] at h
  have hz : (l.dropWhile isSpaceChar).reverse.dropWhile isSpaceChar ≠ [] := by
    intro he
    rw [he] at h
    simp at h
  rw [dropWhile_getLast _ hz, List.getLast?_reverse] at h
  exact dropWhile_head_false l c h

theorem trimSpaces_last (l : List Char) (c : Char)
    (h : (trimSpaces l).getLast? = some c) : isSpaceChar c = false := by
  unfold trimSpaces at h
  rw [List.getLast?_reverse] at h
  exact dropWhile_head_false _ c h

theorem trimSpaces_mem {l : List Char} {c : Char} (h : c ∈ trimSpaces l) :
    c ∈ l := by
  unfold trimSpaces at h
  rw [List.mem_reverse] at h
  have h2 := dropWhile_mem h
  rw [List.mem_reverse] at h2
  exact dropWhile_mem h2

theorem trimSpaces_chain {R : Char → Char → Prop}
    (hsymm : ∀ a b, R a b → R b a) {l : List Char} (h : List.Chain' R l) :
    List.Chain' R (trimSpaces l) := by
  unfold trimSpaces
  exact chain_reverse_of_symm hsymm
    (dropWhile_chain (chain_reverse_of_symm hsymm (dropWhile_chain h)))

theorem trimSpaces_filter (l : List Char) :
    (trimSpaces l).filter (fun c => !isSpaceChar c) =
      l.filter (fun c => !isSpaceChar c) := by
  unfold trimSpaces
  rw [List.filter_reverse, dropWhile_filter_neg, List.filter_reverse,
    dropWhile_filter_neg, List.reverse_reverse]

theorem trimSpaces_eq_self (l : List Char)
    (hh : ∀ c, l.head? = some c → isSpaceChar c = false)
    (hl : ∀ c, l.getLast? = some c → isSpaceChar c = false) :
    trimSpaces l = l := by
  unfold trimSpaces
  rw [dropWhile_eq_self hh, dropWhile_eq_self, List.reverse_reverse]
  intro c hc
  rw [List.head?_reverse] at hc
  exact hl c hc

theorem map_eq_self_of {f : Char → Char} :
    ∀ (l : List Char), (∀ c ∈ l, f c = c) → l.map f = l := by
  intro l
  induction l with
  | nil => intro _; rfl
  | cons d rest ih =>
    intro h
    rw [List.map_cons, h d (by simp), ih (fun c hc => h c (by simp [hc]))]

theorem normCore_mem (l : List Char) :
    ∀ c ∈ normCore l, (isWordChar c = true ∧ toLowerChar c = c) ∨ c = ' ' := by
  intro c hc
  have h1 : c ∈ collapseWS (stripPunct (l.map toLowerChar)) := trimSpaces_mem hc
  rcases collapseWS_mem _ c h1 with h2 | ⟨hns, h2⟩
  · exact Or.inr h2
  · left
    rw [stripPunct, List.mem_filter] at h2
    have hkeep := h2.2
    rw [keepChar, Bool.or_eq_true, hns] at hkeep
    have hword : isWordChar c = true := by
      rcases hkeep with h | h
      · exact h
      · simp at h
    refine ⟨hword, ?_⟩
    rcases List.mem_map.mp h2.1 with ⟨x, _, hx⟩
    rw [← hx, toLowerChar_idem]

theorem normCore_chain (l : List Char) :
    List.Chain' (fun a b => ¬(a = ' ' ∧ b = ' ')) (normCore l) := by
  apply trimSpaces_chain
  · intro a b hab h
    exact hab ⟨h.2, h.1⟩
  · apply (collapseWS_chain _).imp
    intro a b hab h
    apply hab
    rw [h.1, h.2]
    exact ⟨isSpaceChar_space, isSpaceChar_space⟩

theorem normCore_head (l : List Char) (c : Char)
    (h : (normCore l).head? = some c) : c ≠ ' ' := by
  intro he
  have := trimSpaces_head _ c h
  rw [he, isSpaceChar_space] at this
  exact Bool.true_eq_false.mp this

theorem normCore_last (l : List Char) (c : Char)
    (h : (normCore l).getLast? = some c) : c ≠ ' ' := by
  intro he
  have := trimSpaces_last _ c h
  rw [he, isSpaceChar_space] at this
  exact Bool.true_eq_false.mp this

theorem keep_and_nonspace (c : Char) :
    (keepChar c && !isSpaceChar c) = (isWordChar c && !isSpaceChar c) := by
  rw [keepChar]
  cases hw : isWordChar c <;> cases hs : isSpaceChar c <;> simp [hw, hs]

theorem normCore_filter (l : List Char) :
    (normCore l).filter (fun c => !isSpaceChar c) =
      (l.map toLowerChar).filter (fun c => isWordChar c && !isSpaceChar c) := by
  unfold normCore
  rw [trimSpaces_filter, collapseWS_filter, stripPunct, List.filter_filter]
  apply List.filter_congr
  intro c _
  rw [Bool.and_comm]
  exact keep_and_nonspace c

theorem mem_of_head? {l : List Char} {c : Char} (h : l.head? = some c) :
    c ∈ l := by
  cases l with
  | nil => simp at h
  | cons d rest =>
    simp at h
    rw [← h]
    simp

theorem mem_of_getLast? {l : List Char} {c : Char} (h : l.getLast? = some c) :
    c ∈ l := by
  induction l with
  | nil => simp at h
  | cons d rest ih =>
    cases rest with
    | nil =>
      simp at h
      rw [← h]
      simp
    | cons e tail =>
      rw [List.getLast?_cons_cons] at h
      exact List.mem_cons_of_mem d (ih h)

theorem normCore_idem (l : List Char) : normCore (normCore l) = normCore l := by
  have hmem := normCore_mem l
  have hmap : (normCore l).map toLowerChar = normCore l := by
    apply map_eq_self_of
    intro c hc
    rcases hmem c hc with ⟨_, hfix⟩ | hsp
    · exact hfix
    · rw [hsp]
      exact toLowerChar_of_space ' ' isSpaceChar_space
  have hfilter : stripPunct (normCore l) = normCore l := by
    rw [stripPunct]
    apply List.filter_eq_self.mpr
    intro c hc
    rcases hmem c hc with ⟨hw, _⟩ | hsp
    · rw [keepChar, hw]
      simp
    · rw [hsp, keepChar, Bool.or_eq_true]
      exact Or.inr isSpaceChar_space
  have hcollapse : collapseWS (normCore l) = normCore l := by
    apply collapseWS_eq_self
    · intro c hc hsp
      rcases hmem c hc with ⟨hw, _⟩ | h
      · rw [word_not_space c hw] at hsp
        exact absurd hsp (by simp)
      · exact h
    · exact normCore_chain l
  have htrim : trimSpaces (normCore l) = normCore l := by
    apply trimSpaces_eq_self
    · intro c hc
      rcases hmem c (mem_of_head? hc) with ⟨hw, _⟩ | hsp
      · exact word_not_space c hw
      · exact absurd hsp (normCore_head l c hc)
    · intro c hc
      rcases hmem c (mem_of_getLast? hc) with ⟨hw, _⟩ | hsp
      · exact word_not_space c hw
      · exact absurd hsp (normCore_last l c hc)
  conv_rhs => rw [← htrim]
  show trimSpaces (collapseWS (stripPunct ((normCore l).map toLowerChar))) =
    trimSpaces (normCore l)
  rw [hmap, hfilter, hcollapse]

theorem normalize_text_eq_mk (s : String) :
    normalize_text s = String.mk (normCore s.data) := by
  by_cases h : s = ""
  · rw [normalize_text, if_pos h, h]
    rfl
  · rw [normalize_text, if_neg h]

theorem normalize_text_data (s : String) :
    (normalize_text s).data = normCore s.data := by
  rw [normalize_text_eq_mk]

theorem normalize_text_pyLower (s : String) :
    normalize_text (pyLower s) = normalize_text s := by
  rw [normalize_text_eq_mk, normalize_text_eq_mk]
  show String.mk (normCore (s.data.map toLowerChar)) = String.mk (normCore s.data)
  unfold normCore
  rw [List.map_map]
  rw [List.map_congr_left (f := toLowerChar ∘ toLowerChar) (g := toLowerChar)
    (fun c _ => toLowerChar_idem c)]

/-- C3, counterexample.  The claim says every character that is not a
letter, a digit, or whitespace is stripped; but the code's regex class
`\w` also keeps the underscore, so `normalize_text "a_b"` is `"a_b"`,
while the normalizer the claim describes (`normalizeSpecClaim`) yields
`"ab"`. -/
theorem C3_counterexample :
    normalize_text ("a_b") = "a_b" ∧ normalizeSpecClaim ("a_b") = "ab" ∧
      normalize_text ("a_b") ≠ normalizeSpecClaim ("a_b") := by
  decide

/-- C3, amended: `normalize_text` lower-cases its input, strips every
character that is not a word character (a letter, a digit, or an
underscore) or whitespace, collapses every whitespace run to a single
space, and trims: the empty string maps to itself; every character of the
output is a lower-case-fixed word character or a single space; the
non-space content of the output is exactly the word characters of the
lower-cased input in order; no two spaces are adjacent; and the output
neither starts nor ends with a space. -/
theorem C3_normalize_amended (s : String) :
    normalize_text ("") = "" ∧
    (∀ c ∈ (normalize_text s).data,
      (isWordChar c = true ∧ toLowerChar c = c) ∨ c = ' ') ∧
    ((normalize_text s).data.filter (fun c => !isSpaceChar c) =
      (s.data.map toLowerChar).filter (fun c => isWordChar c && !isSpaceChar c)) ∧
    List.Chain' (fun a b => ¬(a = ' ' ∧ b = ' ')) (normalize_text s).data ∧
    (∀ c, (normalize_text s).data.head? = some c → c ≠ ' ') ∧
    (∀ c, (normalize_text s).data.getLast? = some c → c ≠ ' ') := by
  rw [normalize_text_data]
  exact ⟨rfl, normCore_mem s.data, normCore_filter s.data, normCore_chain s.data,
    normCore_head s.data, normCore_last s.data⟩

/-- Witness for the amended C3, instantiated at the counterexample input
`"a_b"` with the member character `'a'`. -/
theorem C3_normalize_amended_witness :
    (isWordChar 'a' = true ∧ toLowerChar 'a' = 'a') ∨ 'a' = ' ' :=
  (C3_normalize_amended ("a_b")).2.1 'a' (by decide)

/-- C8: `normalize_text` is a pure deterministic Lean function, it is
idempotent, and it identifies strings differing only in case and
punctuation: `normalize_text "Hello!!" = normalize_text "hello"`. -/
theorem C8_normalize_idempotent :
    (∀ x : String, normalize_text (normalize_text x) = normalize_text x) ∧
      normalize_text ("Hello!!") = normalize_text ("hello") := by
  constructor
  · intro x
    rw [normalize_text_eq_mk x, normalize_text_eq_mk]
    show String.mk (normCore (normCore x.data)) = String.mk (normCore x.data)
    rw [normCore_idem]
  · decide

theorem dictGet_eq_find {α : Type} (kb : List (String × α)) (q : String) :
    dictGet kb q = (kb.find? (fun kv => decide (kv.1 = q))).map (fun kv => kv.2) := by
  induction kb with
  | nil => rfl
  | cons kv rest ih =>
    rw [dictGet, List.find?_cons]
    by_cases h : kv.1 = q
    · simp [h]
    · simp [h, ih]

theorem findNormEq_eq_find (kb : List (String × String)) (nq : String) :
    findNormEq kb nq =
      (kb.find? (fun kv => decide (normalize_text kv.1 = nq))).map (fun kv => kv.2) := by
  induction kb with
  | nil => rfl
  | cons kv rest ih =>
    rw [findNormEq, List.find?_cons]
    by_cases h : normalize_text kv.1 = nq
    · simp [h]
    · simp [h, ih]

theorem findSubstr_eq_find (kb : List (String × String)) (nq : String) :
    findSubstr kb nq =
      (kb.find? (fun kv =>
        substrB (normalize_text kv.1) nq || substrB nq (normalize_text kv.1))).map
        (fun kv => kv.2) := by
  induction kb with
  | nil => rfl
  | cons kv rest ih =>
    rw [findSubstr, List.find?_cons]
    by_cases h : (substrB (normalize_text kv.1) nq ||
        substrB nq (normalize_text kv.1)) = true
    · simp [h]
    · have hb : (substrB (normalize_text kv.1) nq ||
          substrB nq (normalize_text kv.1)) = false := by simpa using h
      simp [hb, ih]

/-- C1: the lookup resolves in the fixed four-tier order with the first hit
winning: raw-key hit (unconditional, no normalization), then first
normalized-equality hit, then first substring-containment hit, then the
word-overlap tier, otherwise NotFound — `find_in_knowledge_base` equals the
tiered composition `lookupTiered` stated via `List.find?` over the base in
iteration order. -/
theorem C1_lookup_tier_order (kb : List (String × String)) (q : String) :
    find_in_knowledge_base kb q = lookupTiered kb q := by
  rw [find_in_knowledge_base, lookupTiered, tier1Find, tier2Find, tier3Find,
    ← dictGet_eq_find, ← findNormEq_eq_find, ← findSubstr_eq_find]
  cases h1 : dictGet kb q with
  | some v => rfl
  | none =>
    cases h2 : findNormEq kb (normalize_text q) with
    | some v => rfl
    | none =>
      cases h3 : findSubstr kb (normalize_text q) with
      | some v => rfl
      | none => rfl

theorem tier4Step_eq (qws : List String) (b : Option String) (s : Nat)
    (kv : String × String) :
    tier4Step qws (b, s) kv =
      if s < overlapScore qws kv.1 ∧ 1 ≤ overlapScore qws kv.1 ∧
          qws.length ≤ 2 * overlapScore qws kv.1 then
        (some kv.2, overlapScore qws kv.1)
      else (b, s) := rfl

theorem t4max_cons (qws : List String) (kv : String × String)
    (kb : List (String × String)) (s : Nat) :
    t4max qws (kv :: kb) s =
      t4max qws kb
        (if 1 ≤ overlapScore qws kv.1 ∧ qws.length ≤ 2 * overlapScore qws kv.1
         then Nat.max s (overlapScore qws kv.1) else s) := rfl

theorem le_t4max (qws : List String) (kb : List (String × String)) (s : Nat) :
    s ≤ t4max qws kb s := by
  induction kb generalizing s with
  | nil => exact Nat.le_refl s
  | cons kv rest ih =>
    rw [t4max_cons]
    by_cases h : 1 ≤ overlapScore qws kv.1 ∧ qws.length ≤ 2 * overlapScore qws kv.1
    · rw [if_pos h]
      exact Nat.le_trans (Nat.le_max_left _ _) (ih _)
    · rw [if_neg h]
      exact ih s

theorem t4max_mem (qws : List String) (kb : List (String × String)) (s : Nat) :
    t4max qws kb s = s ∨
      ∃ kv ∈ kb, (1 ≤ overlapScore qws kv.1 ∧
        qws.length ≤ 2 * overlapScore qws kv.1) ∧
        t4max qws kb s = overlapScore qws kv.1 := by
  induction kb generalizing s with
  | nil => exact Or.inl rfl
  | cons kv rest ih =>
    rw [t4max_cons]
    by_cases h : 1 ≤ overlapScore qws kv.1 ∧ qws.length ≤ 2 * overlapScore qws kv.1
    · rw [if_pos h]
      rcases ih (Nat.max s (overlapScore qws kv.1)) with h1 | ⟨kv2, hmem, hq, he⟩
      · rcases Nat.le_total (overlapScore qws kv.1) s with hle | hle
        · have hmax : Nat.max s (overlapScore qws kv.1) = s :=
            Nat.max_eq_left hle
          rw [h1, hmax]
          exact Or.inl rfl
        · have hmax : Nat.max s (overlapScore qws kv.1) = overlapScore qws kv.1 :=
            Nat.max_eq_right hle
          rw [h1, hmax]
          exact Or.inr ⟨kv, by simp, h, rfl⟩
      · exact Or.inr ⟨kv2, by simp [hmem], hq, he⟩
    · rw [if_neg h]
      rcases ih s with h1 | ⟨kv2, hmem, hq, he⟩
      · exact Or.inl h1
      · exact Or.inr ⟨kv2, by simp [hmem], hq, he⟩

theorem t4max_ge (qws : List String) (kb : List (String × String)) (s : Nat)
    (kv : String × String) :
    kv ∈ kb →
      (1 ≤ overlapScore qws kv.1 ∧ qws.length ≤ 2 * overlapScore qws kv.1) →
      overlapScore qws kv.1 ≤ t4max qws kb s := by
  induction kb generalizing s with
  | nil => intro hmem _; simp at hmem
  | cons kv0 rest ih =>
    intro hmem hq
    rw [t4max_cons]
    rcases List.mem_cons.mp hmem with he | hmem2
    · subst he
      rw [if_pos hq]
      exact Nat.le_trans (Nat.le_max_right _ _) (le_t4max _ _ _)
    · by_cases h : 1 ≤ overlapScore qws kv0.1 ∧
          qws.length ≤ 2 * overlapScore qws kv0.1
      · rw [if_pos h]
        exact ih _ hmem2 hq
      · rw [if_neg h]
        exact ih s hmem2 hq

theorem tier4Fold_score (qws : List String) (kb : List (String × String))
    (b : Option String) (s : Nat) :
    (kb.foldl (tier4Step qws) (b, s)).2 = t4max qws kb s := by
  induction kb generalizing b s with
  | nil => rfl
  | cons kv rest ih =>
    rw [List.foldl_cons, tier4Step_eq, t4max_cons]
    by_cases hstep : s < overlapScore qws kv.1 ∧ 1 ≤ overlapScore qws kv.1 ∧
        qws.length ≤ 2 * overlapScore qws kv.1
    · have hmax : Nat.max s (overlapScore qws kv.1) = overlapScore qws kv.1 :=
        Nat.max_eq_right (Nat.le_of_lt hstep.1)
      rw [if_pos hstep, if_pos ⟨hstep.2.1, hstep.2.2⟩, ih, hmax]
    · rw [if_neg hstep]
      by_cases hq : 1 ≤ overlapScore qws kv.1 ∧
          qws.length ≤ 2 * overlapScore qws kv.1
      · rw [if_pos hq, ih]
        have hle : overlapScore qws kv.1 ≤ s := by
          by_contra hlt
          exact hstep ⟨Nat.lt_of_not_le hlt, hq⟩
        have hmax : Nat.max s (overlapScore qws kv.1) = s :=
          Nat.max_eq_left hle
        rw [hmax]
      · rw [if_neg hq, ih]

theorem tier4Fold_none (qws : List String) (kb : List (String × String))
    (b : Option String) (s : Nat)
    (h : ∀ kv ∈ kb, ¬(s < overlapScore qws kv.1 ∧ 1 ≤ overlapScore qws kv.1 ∧
      qws.length ≤ 2 * overlapScore qws kv.1)) :
    kb.foldl (tier4Step qws) (b, s) = (b, s) := by
  induction kb with
  | nil => rfl
  | cons kv rest ih =>
    rw [List.foldl_cons, tier4Step_eq, if_neg (h kv (by simp))]
    exact ih (fun kv2 hmem => h kv2 (by simp [hmem]))

theorem tier4Fold_value (qws : List String) (kb : List (String × String))
    (b : Option String) (s : Nat)
    (h : ∃ kv ∈ kb, s < overlapScore qws kv.1 ∧ 1 ≤ overlapScore qws kv.1 ∧
      qws.length ≤ 2 * overlapScore qws kv.1) :
    ∃ kv, kb.find? (fun kv => decide (overlapScore qws kv.1 = t4max qws kb s)) =
        some kv ∧
      kb.foldl (tier4Step qws) (b, s) = (some kv.2, overlapScore qws kv.1) := by
  induction kb generalizing b s with
  | nil => simp at h
  | cons kv0 rest ih =>
    rw [List.foldl_cons, tier4Step_eq, t4max_cons, List.find?_cons]
    by_cases hstep : s < overlapScore qws kv0.1 ∧ 1 ≤ overlapScore qws kv0.1 ∧
        qws.length ≤ 2 * overlapScore qws kv0.1
    · have hmax0 : Nat.max s (overlapScore qws kv0.1) = overlapScore qws kv0.1 :=
        Nat.max_eq_right (Nat.le_of_lt hstep.1)
      rw [if_pos hstep, if_pos ⟨hstep.2.1, hstep.2.2⟩, hmax0]
      by_cases hrest : ∃ kv ∈ rest, overlapScore qws kv0.1 < overlapScore qws kv.1 ∧
          1 ≤ overlapScore qws kv.1 ∧ qws.length ≤ 2 * overlapScore qws kv.1
      · obtain ⟨kv, hfind, hfold⟩ := ih (some kv0.2) (overlapScore qws kv0.1) hrest
        obtain ⟨kvw, hkvw, hlt, hq⟩ := hrest
        have hMgt : overlapScore qws kv0.1 <
            t4max qws rest (overlapScore qws kv0.1) :=
          Nat.lt_of_lt_of_le hlt (t4max_ge qws rest _ kvw hkvw hq)
        have hne : (decide (overlapScore qws kv0.1 =
            t4max qws rest (overlapScore qws kv0.1))) = false := by
          simp
          omega
        rw [hne]
        exact ⟨kv, hfind, hfold⟩
      · have hnofire : ∀ kv ∈ rest, ¬(overlapScore qws kv0.1 < overlapScore qws kv.1 ∧
            1 ≤ overlapScore qws kv.1 ∧ qws.length ≤ 2 * overlapScore qws kv.1) := by
          intro kv hkv hcon
          exact hrest ⟨kv, hkv, hcon⟩
        have hM : t4max qws rest (overlapScore qws kv0.1) = overlapScore qws kv0.1 := by
          rcases t4max_mem qws rest (overlapScore qws kv0.1) with h1 | ⟨kv2, hm2, hq2, he2⟩
          · exact h1
          · have hge := le_t4max qws rest (overlapScore qws kv0.1)
            have hle2 : overlapScore qws kv2.1 ≤ overlapScore qws kv0.1 := by
              by_contra hcon
              exact hnofire kv2 hm2 ⟨Nat.lt_of_not_le hcon, hq2⟩
            omega
        have heq : (decide (overlapScore qws kv0.1 =
            t4max qws rest (overlapScore qws kv0.1))) = true := by
          simp [hM]
        rw [heq]
        refine ⟨kv0, rfl, ?_⟩
        rw [tier4Fold_none qws rest (some kv0.2) (overlapScore qws kv0.1) hnofire]
    · rw [if_neg hstep]
      have hrest : ∃ kv ∈ rest, s < overlapScore qws kv.1 ∧
          1 ≤ overlapScore qws kv.1 ∧ qws.length ≤ 2 * overlapScore qws kv.1 := by
        obtain ⟨kv, hkv, hcond⟩ := h
        rcases List.mem_cons.mp hkv with he | hm
        · subst he
          exact absurd hcond hstep
        · exact ⟨kv, hm, hcond⟩
      obtain ⟨kv, hfind, hfold⟩ := ih b s hrest
      obtain ⟨kvw, hkvw, hlt, hq⟩ := hrest
      have hMgt : s < t4max qws rest s :=
        Nat.lt_of_lt_of_le hlt (t4max_ge qws rest s kvw hkvw hq)
      have hMqual : 1 ≤ t4max qws rest s ∧
          qws.length ≤ 2 * t4max qws rest s := by
        rcases t4max_mem qws rest s with h1 | ⟨kv2, _, hq2, he2⟩
        · omega
        · omega
      have hs' : (if 1 ≤ overlapScore qws kv0.1 ∧
            qws.length ≤ 2 * overlapScore qws kv0.1
          then Nat.max s (overlapScore qws kv0.1) else s) = s := by
        by_cases hq0 : 1 ≤ overlapScore qws kv0.1 ∧
            qws.length ≤ 2 * overlapScore qws kv0.1
        · rw [if_pos hq0]
          have hle0 : overlapScore qws kv0.1 ≤ s := by
            by_contra hcon
            exact hstep ⟨Nat.lt_of_not_le hcon, hq0⟩
          exact Nat.max_eq_left hle0
        · rw [if_neg hq0]
      rw [hs']
      have hne : (decide (overlapScore qws kv0.1 = t4max qws rest s)) = false := by
        simp
        intro hcon
        by_cases hq0 : 1 ≤ overlapScore qws kv0.1 ∧
            qws.length ≤ 2 * overlapScore qws kv0.1
        · have hle0 : overlapScore qws kv0.1 ≤ s := by
            by_contra hcon2
            exact hstep ⟨Nat.lt_of_not_le hcon2, hq0⟩
          omega
        · rw [hcon] at hq0
          exact hq0 hMqual
      rw [hne]
      exact ⟨kv, hfind, hfold⟩

theorem qual_iff_threshold (n sc : Nat) :
    (1 ≤ sc ∧ n ≤ 2 * sc) ↔ Nat.max 1 ((n + 1) / 2) ≤ sc := by
  rcases Nat.le_total 1 ((n + 1) / 2) with h | h
  · have hmax : Nat.max 1 ((n + 1) / 2) = (n + 1) / 2 := Nat.max_eq_right h
    rw [hmax]
    omega
  · have hmax : Nat.max 1 ((n + 1) / 2) = 1 := Nat.max_eq_left h
    rw [hmax]
    omega

theorem t4max_as_cands (qws : List String) (kb : List (String × String)) (s : Nat) :
    t4max qws kb s =
      ((kb.map (fun kv => (kv.2, overlapScore qws kv.1))).filter
        (fun p => decide (Nat.max 1 ((qws.length + 1) / 2) ≤ p.2))).foldl
        (fun m p2 => Nat.max m p2.2) s := by
  induction kb generalizing s with
  | nil => rfl
  | cons kv rest ih =>
    rw [t4max_cons, List.map_cons]
    by_cases hq : 1 ≤ overlapScore qws kv.1 ∧ qws.length ≤ 2 * overlapScore qws kv.1
    · have hfil : ((kv.2, overlapScore qws kv.1) ::
          rest.map (fun kv => (kv.2, overlapScore qws kv.1))).filter
          (fun p => decide (Nat.max 1 ((qws.length + 1) / 2) ≤ p.2)) =
          (kv.2, overlapScore qws kv.1) ::
          (rest.map (fun kv => (kv.2, overlapScore qws kv.1))).filter
          (fun p => decide (Nat.max 1 ((qws.length + 1) / 2) ≤ p.2)) :=
        List.filter_cons_of_pos (decide_eq_true ((qual_iff_threshold _ _).mp hq))
      rw [if_pos hq, hfil, List.foldl_cons]
      exact ih _
    · have hfil : ((kv.2, overlapScore qws kv.1) ::
          rest.map (fun kv => (kv.2, overlapScore qws kv.1))).filter
          (fun p => decide (Nat.max 1 ((qws.length + 1) / 2) ≤ p.2)) =
          (rest.map (fun kv => (kv.2, overlapScore qws kv.1))).filter
          (fun p => decide (Nat.max 1 ((qws.length + 1) / 2) ≤ p.2)) := by
        apply List.filter_cons_of_neg
        intro hcon
        rw [decide_eq_true_eq] at hcon
        exact hq ((qual_iff_threshold _ _).mpr hcon)
      rw [if_neg hq, hfil]
      exact ih s

theorem cands_find_eq (qws : List String) (kb : List (String × String)) (M : Nat)
    (hq : 1 ≤ M ∧ qws.length ≤ 2 * M) :
    (((kb.map (fun kv => (kv.2, overlapScore qws kv.1))).filter
        (fun p => decide (Nat.max 1 ((qws.length + 1) / 2) ≤ p.2))).find?
        (fun p => decide (p.2 = M))).map (fun p => p.1) =
      (kb.find? (fun kv => decide (overlapScore qws kv.1 = M))).map
        (fun kv => kv.2) := by
  induction kb with
  | nil => rfl
  | cons kv rest ih =>
    rw [List.map_cons]
    by_cases hm : overlapScore qws kv.1 = M
    · have hqkv : 1 ≤ overlapScore qws kv.1 ∧
          qws.length ≤ 2 * overlapScore qws kv.1 := by rw [hm]; exact hq
      have hfil : ((kv.2, overlapScore qws kv.1) ::
          rest.map (fun kv => (kv.2, overlapScore qws kv.1))).filter
          (fun p => decide (Nat.max 1 ((qws.length + 1) / 2) ≤ p.2)) =
          (kv.2, overlapScore qws kv.1) ::
          (rest.map (fun kv => (kv.2, overlapScore qws kv.1))).filter
          (fun p => decide (Nat.max 1 ((qws.length + 1) / 2) ≤ p.2)) :=
        List.filter_cons_of_pos (decide_eq_true ((qual_iff_threshold _ _).mp hqkv))
      have hfd1 : (((kv.2, overlapScore qws kv.1) ::
          (rest.map (fun kv => (kv.2, overlapScore qws kv.1))).filter
          (fun p => decide (Nat.max 1 ((qws.length + 1) / 2) ≤ p.2))).find?
          (fun p => decide (p.2 = M))) = some (kv.2, overlapScore qws kv.1) :=
        List.find?_cons_of_pos _ (decide_eq_true hm)
      have hfd2 : ((kv :: rest).find?
          (fun kv => decide (overlapScore qws kv.1 = M))) = some kv :=
        List.find?_cons_of_pos _ (decide_eq_true hm)
      rw [hfil, hfd1, hfd2]
      rfl
    · have hfd2 : ((kv :: rest).find?
          (fun kv => decide (overlapScore qws kv.1 = M))) =
          rest.find? (fun kv => decide (overlapScore qws kv.1 = M)) :=
        List.find?_cons_of_neg _ (by rw [decide_eq_false hm]; simp)
      by_cases hthr : Nat.max 1 ((qws.length + 1) / 2) ≤ overlapScore qws kv.1
      · have hfil : ((kv.2, overlapScore qws kv.1) ::
            rest.map (fun kv => (kv.2, overlapScore qws kv.1))).filter
            (fun p => decide (Nat.max 1 ((qws.length + 1) / 2) ≤ p.2)) =
            (kv.2, overlapScore qws kv.1) ::
            (rest.map (fun kv => (kv.2, overlapScore qws kv.1))).filter
            (fun p => decide (Nat.max 1 ((qws.length + 1) / 2) ≤ p.2)) :=
          List.filter_cons_of_pos (decide_eq_true hthr)
        have hfd1 : (((kv.2, overlapScore qws kv.1) ::
            (rest.map (fun kv => (kv.2, overlapScore qws kv.1))).filter
            (fun p => decide (Nat.max 1 ((qws.length + 1) / 2) ≤ p.2))).find?
            (fun p => decide (p.2 = M))) =
            ((rest.map (fun kv => (kv.2, overlapScore qws kv.1))).filter
            (fun p => decide (Nat.max 1 ((qws.length + 1) / 2) ≤ p.2))).find?
            (fun p => decide (p.2 = M)) :=
          List.find?_cons_of_neg _ (by rw [decide_eq_false hm]; simp)
        rw [hfil, hfd1, hfd2]
        exact ih
      · have hfil : ((kv.2, overlapScore qws kv.1) ::
            rest.map (fun kv => (kv.2, overlapScore qws kv.1))).filter
            (fun p => decide (Nat.max 1 ((qws.length + 1) / 2) ≤ p.2)) =
            (rest.map (fun kv => (kv.2, overlapScore qws kv.1))).filter
            (fun p => decide (Nat.max 1 ((qws.length + 1) / 2) ≤ p.2)) :=
          List.filter_cons_of_neg (by rw [decide_eq_false hthr]; simp)
        rw [hfil, hfd2]
        exact ih

theorem tier4_eq_specClaim (kb : List (String × String)) (q : String) :
    tier4 kb (normalize_text q) =
      Option.bind (tier4SpecClaim kb q)
        (fun v => if v = "" then none else some v) := by
  unfold tier4 tier4SpecClaim tier4Fold
  dsimp only
  set qws := wordSet (normalize_text q) with hqws
  by_cases hlen : 1 < qws.length
  · rw [if_pos hlen, if_neg (by omega : ¬(qws.length ≤ 1))]
    by_cases hex : ∃ kv ∈ kb, 0 < overlapScore qws kv.1 ∧
        1 ≤ overlapScore qws kv.1 ∧ qws.length ≤ 2 * overlapScore qws kv.1
    · obtain ⟨kv, hfind, hfold⟩ := tier4Fold_value qws kb none 0 hex
      obtain ⟨kvw, hkvw, hpos, hq1, hq2⟩ := hex
      have hMge : overlapScore qws kvw.1 ≤ t4max qws kb 0 :=
        t4max_ge qws kb 0 kvw hkvw ⟨hq1, hq2⟩
      have hMqual : 1 ≤ t4max qws kb 0 ∧ qws.length ≤ 2 * t4max qws kb 0 := by
        rcases t4max_mem qws kb 0 with h1 | ⟨kv2, _, hq2', he2⟩ <;> omega
      rw [← t4max_as_cands, cands_find_eq qws kb (t4max qws kb 0) hMqual,
        hfind, hfold]
      rfl
    · have hnofire : ∀ kv ∈ kb, ¬(0 < overlapScore qws kv.1 ∧
          1 ≤ overlapScore qws kv.1 ∧
          qws.length ≤ 2 * overlapScore qws kv.1) :=
        fun kv hkv hcon => hex ⟨kv, hkv, hcon⟩
      rw [tier4Fold_none qws kb none 0 hnofire]
      have hcand : (kb.map (fun kv => (kv.2, overlapScore qws kv.1))).filter
          (fun p => decide (Nat.max 1 ((qws.length + 1) / 2) ≤ p.2)) = [] := by
        rw [List.filter_eq_nil_iff]
        intro p hp
        rcases List.mem_map.mp hp with ⟨kv2, hkv2, he2⟩
        rw [decide_eq_true_eq, ← he2]
        intro hcon
        have hq2 := (qual_iff_threshold qws.length (overlapScore qws kv2.1)).mpr hcon
        exact hnofire kv2 hkv2 ⟨by omega, hq2⟩
      rw [hcand]
      rfl
  · rw [if_neg hlen, if_pos (by omega : qws.length ≤ 1)]
    rfl

/-- C2, counterexample.  With base `{"a b": ""}` and question `"a c"`,
tiers 1-3 miss; in tier 4 the single candidate qualifies (score 1 ≥
max(1, ceil(0.5*2)) = 1), so by the claim its value — the empty string — is
returned, and lookup succeeds.  The code instead drops the empty-string
best match (`if best_match:`) and the lookup returns NotFound. -/
theorem C2_counterexample :
    tier4SpecClaim [("a b", "")] ("a c") = some "" ∧
      find_in_knowledge_base [("a b", "")] ("a c") = none := by
  decide

/-- C2, amended: the word-overlap tier behaves exactly as the claim says
(attempted only when the word set of the normalized question has more than
one element; `score = |intersection|` of the word sets; a candidate
qualifies iff `score >= max(1, ceil(0.5 * questionWordCount))`; strictly
highest qualifying score wins, first candidate in base iteration order on
ties; NotFound when no candidate qualifies) — except that a winning
candidate whose stored answer is the empty string is discarded and the
tier returns NotFound. -/
theorem C2_word_overlap_amended (kb : List (String × String)) (q : String) :
    tier4 kb (normalize_text q) =
      Option.bind (tier4SpecClaim kb q)
        (fun v => if v = "" then none else some v) :=
  tier4_eq_specClaim kb q

theorem containsSub_nil (l : List Char) : containsSub [] l = true := by
  cases l <;> rfl

theorem substrB_empty (s : String) : substrB ("") s = true :=
  containsSub_nil s.data

/-- C9: if some key of the base normalizes to the empty string (for
example a punctuation-only key), the lookup never returns NotFound: the
empty normalized key is a substring of every normalized question, so the
substring tier (tier 3) always produces a value when tiers 1 and 2 miss. -/
theorem C9_empty_key_always_found (kb : List (String × String))
    (q k v : String) (hmem : (k, v) ∈ kb) (hnorm : normalize_text k = "") :
    find_in_knowledge_base kb q ≠ none := by
  unfold find_in_knowledge_base
  cases h1 : dictGet kb q with
  | some v1 => simp
  | none =>
    cases h2 : findNormEq kb (normalize_text q) with
    | some v2 => simp [h2]
    | none =>
      cases h3 : findSubstr kb (normalize_text q) with
      | some v3 => simp [h2, h3]
      | none =>
        exfalso
        rw [findSubstr_eq_find] at h3
        have h4 : (kb.find? (fun kv =>
            substrB (normalize_text kv.1) (normalize_text q) ||
            substrB (normalize_text q) (normalize_text kv.1))) = none := by
          cases h5 : kb.find? (fun kv =>
              substrB (normalize_text kv.1) (normalize_text q) ||
              substrB (normalize_text q) (normalize_text kv.1)) with
          | none => rfl
          | some kv => rw [h5] at h3; simp at h3
        have h6 := List.find?_eq_none.mp h4 (k, v) hmem
        apply h6
        show (substrB (normalize_text k) (normalize_text q) ||
          substrB (normalize_text q) (normalize_text k)) = true
        rw [hnorm, substrB_empty]
        simp

/-- Witness for C9 at a punctuation-only key. -/
theorem C9_witness :
    normalize_text ("!!") = "" ∧
      find_in_knowledge_base [("!!", "ответ")] ("любой вопрос") ≠ none :=
  ⟨by decide, C9_empty_key_always_found [("!!", "ответ")] ("любой вопрос")
    ("!!") ("ответ") (by decide) (by decide)⟩

/-- C10: a knowledge-base entry whose answer is the empty string is
indistinguishable from NotFound at the chat route.  First conjunct: when
the word-overlap tier's winning candidate (as described by the claim) has
the empty-string answer, the code's tier 4 returns NotFound.  Second
conjunct: a base on which the lookup yields the empty-string answer makes
`chat` return exactly what it returns on a base where the lookup misses —
the truthiness fallback `find_in_knowledge_base(question) or
call_yandex_gpt(question)` escalates to the external generator either
way. -/
theorem C10_empty_answer_indistinguishable :
    (∀ (kb : List (String × String)) (q : String),
      tier4SpecClaim kb q = some "" → tier4 kb (normalize_text q) = none) ∧
    (∀ (kb kb2 : List (String × String)) (menu : List MenuItem)
      (sugMap : List (String × List Suggestion)) (gpt : List HttpResult)
      (msg : String),
      find_in_knowledge_base kb (pyStrip msg) = some "" →
      find_in_knowledge_base kb2 (pyStrip msg) = none →
      chat kb menu sugMap gpt msg = chat kb2 menu sugMap gpt msg) := by
  constructor
  · intro kb q h
    rw [tier4_eq_specClaim, h]
    rfl
  · intro kb kb2 menu sugMap gpt msg h1 h2
    unfold chat
    by_cases hq : pyStrip msg = ""
    · simp only [if_pos hq]
    · simp only [if_neg hq]
      have hkb : chat_kb_step kb gpt (pyStrip msg) = chat_kb_step kb2 gpt (pyStrip msg) := by
        funext suggestions
        unfold chat_kb_step
        rw [h1, h2]
        simp
      cases hr : resolve_menu_topic menu (pyStrip msg) with
      | none =>
        unfold chat_default
        rw [hkb]
      | some t =>
        dsimp only
        by_cases ht : t = ""
        · rw [if_pos ht, if_pos ht]
          unfold chat_default
          rw [hkb]
        · rw [if_neg ht, if_neg ht]
          unfold chat_topic
          dsimp only
          cases hs : findSuggestionAnswer ((dictGet sugMap t).getD [])
              (pyStrip msg) with
          | none => rw [hkb]
          | some a =>
            dsimp only
            by_cases ha : a = ""
            · rw [if_pos ha, if_pos ha, hkb]
            · rw [if_neg ha, if_neg ha]

/-- Witness for C10 at concrete inputs: the tier-4 part at base
`{"a b": ""}` and question `"a c"`, the chat part at base
`{"вопрос": ""}` against the empty base. -/
theorem C10_witness :
    tier4 [("a b", "")] (normalize_text ("a c")) = none ∧
      chat [("вопрос", "")] [] [] [HttpResult.ok (some "привет")] ("вопрос") =
        chat [] [] [] [HttpResult.ok (some "привет")] ("вопрос") :=
  ⟨C10_empty_answer_indistinguishable.1 [("a b", "")] ("a c") (by decide),
   C10_empty_answer_indistinguishable.2 [("вопрос", "")] [] [] []
     [HttpResult.ok (some "привет")] ("вопрос") (by decide) (by decide)⟩

theorem resolve_menu_topic_congr (menu : List MenuItem) (q1 q2 : String)
    (h : normalize_text q1 = normalize_text q2) :
    resolve_menu_topic menu q1 = resolve_menu_topic menu q2 := by
  induction menu with
  | nil => rfl
  | cons it rest ih =>
    rw [resolve_menu_topic, resolve_menu_topic, h, ih]

/-- C6: topic resolution compares the normalized question with each menu
item's normalized trigger and returns the first exact match's
`suggestion_topic`, else `none` (`resolveTopicSpec` states this via
`List.find?`); it is case-insensitive: questions with the same lower-cased
form resolve identically, and in particular the Cyrillic input `"ВР"`
resolves against the trigger `"вр"`. -/
theorem C6_topic_resolution :
    (∀ (menu : List MenuItem) (q : String),
      resolve_menu_topic menu q = resolveTopicSpec menu q) ∧
    (∀ (menu : List MenuItem) (q1 q2 : String),
      pyLower q1 = pyLower q2 →
      resolve_menu_topic menu q1 = resolve_menu_topic menu q2) ∧
    resolve_menu_topic [⟨"вр", some "vr"⟩] ("ВР") = some "vr" := by
  refine ⟨?_, ?_, by decide⟩
  · intro menu q
    induction menu with
    | nil => rfl
    | cons it rest ih =>
      rw [resolve_menu_topic, resolveTopicSpec]
      by_cases h : normalize_text it.question = normalize_text q
      · have hfd : ((it :: rest).find? (fun it =>
            decide (normalize_text it.question = normalize_text q))) = some it :=
          List.find?_cons_of_pos _ (decide_eq_true h)
        rw [if_pos h, hfd]
      · have hfd : ((it :: rest).find? (fun it =>
            decide (normalize_text it.question = normalize_text q))) =
            rest.find? (fun it =>
              decide (normalize_text it.question = normalize_text q)) :=
          List.find?_cons_of_neg _ (by rw [decide_eq_false h]; simp)
        rw [if_neg h, hfd, ih, resolveTopicSpec]
  · intro menu q1 q2 h
    apply resolve_menu_topic_congr
    rw [← normalize_text_pyLower q1, ← normalize_text_pyLower q2, h]

/-- Witness for the case-insensitivity part of C6, at two casings of the
same Cyrillic string. -/
theorem C6_witness :
    resolve_menu_topic [⟨"вр", some "vr"⟩] ("Вр") =
      resolve_menu_topic [⟨"вр", some "vr"⟩] ("вР") :=
  C6_topic_resolution.2.1 [⟨"вр", some "vr"⟩] ("Вр") ("вР") (by decide)

/-- C4, counterexample.  The chat route resolves the menu topic `"ghost"`,
which is absent from the suggestion map whose `"default"` topic is
populated; the claim promises the default suggestions (never an empty
list), but the route returns an empty suggestion list: step 3 reads
`suggestionMap.get(menu_topic, [])` with no default fallback. -/
theorem C4_counterexample :
    (chat [] [⟨"услуги", some "ghost"⟩]
        [("default", [⟨"Цены", "цены", "от 300"⟩])]
        [HttpResult.ok (some "ответ")] ("услуги")).suggestions = [] ∧
      (dictGet [("default", [(⟨"Цены", "цены", "от 300"⟩ : Suggestion)])]
        ("default")).getD [] ≠ [] := by
  decide

theorem chat_kb_step_suggestions_nil (kb : List (String × String))
    (gpt : List HttpResult) (q : String) :
    (chat_kb_step kb gpt q []).suggestions = [] := by
  unfold chat_kb_step chat_gpt_step
  cases hf : find_in_knowledge_base kb q with
  | some a =>
    dsimp only
    by_cases ha : a = ""
    · rw [if_pos ha]
      cases call_yandex_gpt gpt <;> rfl
    · rw [if_neg ha]
  | none => cases call_yandex_gpt gpt <;> rfl

/-- C4, amended.  The standalone suggestions route does fall back: when
the (lower-cased) topic is absent from the map or stored with an empty
list, `get_suggestions_by_topic` returns the `"default"` topic's
suggestions.  The chat route serves the default suggestions only when it
resolves no menu topic (and the generator call does not raise); when it
resolves a non-empty topic that is absent from the map, it returns an
empty suggestion list, not the default one. -/
theorem C4_suggestions_amended :
    (∀ (sugMap : List (String × List Suggestion)) (topic : String)
      (d : List Suggestion),
      dictGet sugMap ("default") = some d →
      (dictGet sugMap (pyLower topic) = none ∨
        dictGet sugMap (pyLower topic) = some []) →
      get_suggestions_by_topic sugMap topic = d) ∧
    (∀ (kb : List (String × String)) (menu : List MenuItem)
      (sugMap : List (String × List Suggestion)) (gpt : List HttpResult)
      (msg : String),
      pyStrip msg ≠ "" →
      resolve_menu_topic menu (pyStrip msg) = none →
      call_yandex_gpt gpt ≠ Except.error () →
      (chat kb menu sugMap gpt msg).suggestions =
        stripOut ((dictGet sugMap ("default")).getD [])) ∧
    (∀ (kb : List (String × String)) (menu : List MenuItem)
      (sugMap : List (String × List Suggestion)) (gpt : List HttpResult)
      (msg : String) (t : String),
      pyStrip msg ≠ "" →
      resolve_menu_topic menu (pyStrip msg) = some t →
      t ≠ "" →
      dictGet sugMap t = none →
      (chat kb menu sugMap gpt msg).suggestions = []) := by
  refine ⟨?_, ?_, ?_⟩
  · intro sugMap topic d hdef habs
    unfold get_suggestions_by_topic
    rcases habs with h | h <;> rw [h] <;> simp [hdef]
  · intro kb menu sugMap gpt msg hq hres hgpt
    unfold chat
    rw [if_neg hq, hres]
    unfold chat_default chat_kb_step
    cases hf : find_in_knowledge_base kb (pyStrip msg) with
    | some a =>
      dsimp only
      by_cases ha : a = ""
      · rw [if_pos ha]
        unfold chat_gpt_step
        cases hc : call_yandex_gpt gpt with
        | ok r => rfl
        | error e => exact absurd hc (by simpa using hgpt)
      · rw [if_neg ha]
    | none =>
      unfold chat_gpt_step
      cases hc : call_yandex_gpt gpt with
      | ok r => rfl
      | error e => exact absurd hc (by simpa using hgpt)
  · intro kb menu sugMap gpt msg t hq hres ht habs
    unfold chat
    rw [if_neg hq, hres]
    dsimp only
    rw [if_neg ht]
    unfold chat_topic
    rw [habs]
    dsimp only [Option.getD, findSuggestionAnswer, stripOut, List.map]
    exact chat_kb_step_suggestions_nil kb gpt (pyStrip msg)

/-- Witness for the amended C4, at concrete inputs for each conjunct. -/
theorem C4_witness :
    get_suggestions_by_topic [("default", [⟨"Цены", "цены", "от 300"⟩])]
        ("ghost") = [⟨"Цены", "цены", "от 300"⟩] ∧
      (chat [] [] [("default", [⟨"Цены", "цены", "от 300"⟩])]
        [HttpResult.ok (some "ок")] ("привет")).suggestions =
        stripOut ((dictGet [("default", [⟨"Цены", "цены", "от 300"⟩])]
          ("default")).getD []) ∧
      (chat [] [⟨"услуги", some "ghost"⟩]
        [("default", [⟨"Цены", "цены", "от 300"⟩])]
        [HttpResult.ok (some "ответ")] ("услуги")).suggestions = [] :=
  ⟨C4_suggestions_amended.1 [("default", [⟨"Цены", "цены", "от 300"⟩])]
      ("ghost") [⟨"Цены", "цены", "от 300"⟩] (by decide) (Or.inl (by decide)),
   C4_suggestions_amended.2.1 [] [] [("default", [⟨"Цены", "цены", "от 300"⟩])]
      [HttpResult.ok (some "ок")] ("привет") (by decide) (by decide)
      (by intro h; exact nomatch h),
   C4_suggestions_amended.2.2 [] [⟨"услуги", some "ghost"⟩]
      [("default", [⟨"Цены", "цены", "от 300"⟩])]
      [HttpResult.ok (some "ответ")] ("услуги") ("ghost") (by decide) (by decide)
      (by decide) (by decide)⟩

theorem chat_gpt_step_source (gpt : List HttpResult)
    (sug : List SuggestionOut) :
    (chat_gpt_step gpt sug).source = "yandex_gpt" ∨
      (chat_gpt_step gpt sug).source = "error" := by
  unfold chat_gpt_step
  cases call_yandex_gpt gpt with
  | ok r => exact Or.inl rfl
  | error e => exact Or.inr rfl

theorem chat_kb_step_source (kb : List (String × String))
    (gpt : List HttpResult) (q : String) (sug : List SuggestionOut) :
    (chat_kb_step kb gpt q sug).source = "knowledge_base" ∨
      (chat_kb_step kb gpt q sug).source = "yandex_gpt" ∨
      (chat_kb_step kb gpt q sug).source = "error" := by
  unfold chat_kb_step
  cases hf : find_in_knowledge_base kb q with
  | some a =>
    dsimp only
    by_cases ha : a = ""
    · rw [if_pos ha]
      exact Or.inr (chat_gpt_step_source gpt sug)
    · rw [if_neg ha]
      exact Or.inl rfl
  | none => exact Or.inr (chat_gpt_step_source gpt sug)

theorem chat_source_cases (kb : List (String × String)) (menu : List MenuItem)
    (sugMap : List (String × List Suggestion)) (gpt : List HttpResult)
    (msg : String) :
    (chat kb menu sugMap gpt msg).source = "knowledge_base" ∨
      (chat kb menu sugMap gpt msg).source = "suggestion_map" ∨
      (chat kb menu sugMap gpt msg).source = "yandex_gpt" ∨
      (chat kb menu sugMap gpt msg).source = "error" := by
  unfold chat
  by_cases hq : pyStrip msg = ""
  · rw [if_pos hq]
    exact Or.inr (Or.inr (Or.inr rfl))
  · rw [if_neg hq]
    have hdef : ∀ kbx : List (String × String),
        (chat_default kbx sugMap gpt (pyStrip msg)).source = "knowledge_base" ∨
        (chat_default kbx sugMap gpt (pyStrip msg)).source = "suggestion_map" ∨
        (chat_default kbx sugMap gpt (pyStrip msg)).source = "yandex_gpt" ∨
        (chat_default kbx sugMap gpt (pyStrip msg)).source = "error" := by
      intro kbx
      unfold chat_default
      rcases chat_kb_step_source kbx gpt (pyStrip msg)
          (stripOut ((dictGet sugMap ("default")).getD [])) with h | h | h
      · exact Or.inl h
      · exact Or.inr (Or.inr (Or.inl h))
      · exact Or.inr (Or.inr (Or.inr h))
    cases hr : resolve_menu_topic menu (pyStrip msg) with
    | none => exact hdef kb
    | some t =>
      dsimp only
      by_cases ht : t = ""
      · rw [if_pos ht]
        exact hdef kb
      · rw [if_neg ht]
        unfold chat_topic
        dsimp only
        cases hs : findSuggestionAnswer ((dictGet sugMap t).getD [])
            (pyStrip msg) with
        | some a =>
          dsimp only
          by_cases ha : a = ""
          · rw [if_pos ha]
            rcases chat_kb_step_source kb gpt (pyStrip msg)
                (stripOut ((dictGet sugMap t).getD [])) with h | h | h
            · exact Or.inl h
            · exact Or.inr (Or.inr (Or.inl h))
            · exact Or.inr (Or.inr (Or.inr h))
          · rw [if_neg ha]
            exact Or.inr (Or.inl rfl)
        | none =>
          rcases chat_kb_step_source kb gpt (pyStrip msg)
              (stripOut ((dictGet sugMap t).getD [])) with h | h | h
          · exact Or.inl h
          · exact Or.inr (Or.inr (Or.inl h))
          · exact Or.inr (Or.inr (Or.inr h))

/-- C7, counterexample.  The claim lists the literal source values of the
chat output as `"knowledge_base"`, `"suggestion_map"`,
`"external_generator"`, `"error"`; but the route tags answers produced by
the external generator with the literal string `"yandex_gpt"`, which is
not among the four claimed values. -/
theorem C7_counterexample :
    (chat [] [] [] [HttpResult.ok (some "hi")] ("вопрос")).source =
        "yandex_gpt" ∧
      ¬("yandex_gpt" ∈ claimedSources) := by
  decide

/-- C7, amended: for every input, the `source` field of the chat output is
one of exactly the four values `"knowledge_base"`, `"suggestion_map"`,
`"yandex_gpt"` (the tag of the external generator), `"error"`; each of the
four values is attained. -/
theorem C7_source_values_amended :
    (∀ (kb : List (String × String)) (menu : List MenuItem)
      (sugMap : List (String × List Suggestion)) (gpt : List HttpResult)
      (msg : String),
      (chat kb menu sugMap gpt msg).source ∈ actualSources) ∧
    (chat [("привет", "Привет!")] [] [] [] ("привет")).source =
      "knowledge_base" ∧
    (chat [] [⟨"vr", some "vr"⟩] [("vr", [⟨"Игры", "vr", "ответ"⟩])] []
      ("vr")).source = "suggestion_map" ∧
    (chat [] [] [] [HttpResult.ok (some "hi")] ("вопрос")).source =
      "yandex_gpt" ∧
    (chat [] [] [] [] ("")).source = "error" := by
  refine ⟨?_, by decide, by decide, by decide, by decide⟩
  intro kb menu sugMap gpt msg
  rcases chat_source_cases kb menu sugMap gpt msg with h | h | h | h <;>
    rw [h] <;> simp [actualSources]

theorem gptLoop_fail (l : List HttpResult)
    (h : ∀ r ∈ l, isGptFailure r = true) :
    gptLoop l = Except.error () ∨
      ∃ a ∈ gptApologies, gptLoop l = Except.ok a := by
  induction l with
  | nil =>
    right
    exact ⟨"❌ Не удалось получить ответ. Попробуйте позже.",
      by simp [gptApologies], rfl⟩
  | cons r rest ih =>
    cases r with
    | ok t =>
      cases t with
      | some s =>
        have := h (HttpResult.ok (some s)) (by simp)
        simp [isGptFailure] at this
      | none => exact Or.inl rfl
    | status c =>
      by_cases h401 : c = 401
      · right
        refine ⟨"❌ Ошибка авторизации. Проверьте API-ключ.",
          by simp [gptApologies], ?_⟩
        rw [gptLoop]
        simp [h401]
      · by_cases h400 : c = 400
        · right
          refine ⟨"❌ Ошибка параметров. Проверьте folder_id.",
            by simp [gptApologies], ?_⟩
          rw [gptLoop]
          simp [h401, h400]
        · have hrec := ih (fun r2 hr2 => h r2 (by simp [hr2]))
          rw [gptLoop]
          simp only [h401, h400, if_false]
          exact hrec
    | netError =>
      have hrec := ih (fun r2 hr2 => h r2 (by simp [hr2]))
      rw [gptLoop]
      exact hrec

theorem call_yandex_gpt_fail (gpt : List HttpResult)
    (h : ∀ r ∈ gpt, isGptFailure r = true) :
    call_yandex_gpt gpt = Except.error () ∨
      ∃ a ∈ gptApologies, call_yandex_gpt gpt = Except.ok a :=
  gptLoop_fail (gpt.take 3) (fun r hr => h r (List.mem_of_mem_take hr))

theorem chat_gpt_step_fail (gpt : List HttpResult) (sug : List SuggestionOut)
    (h : ∀ r ∈ gpt, isGptFailure r = true) :
    (chat_gpt_step gpt sug).response ≠ "" ∧
      ((chat_gpt_step gpt sug).source = "yandex_gpt" →
        (chat_gpt_step gpt sug).response ∈ gptApologies) ∧
      ((chat_gpt_step gpt sug).source = "error" →
        (chat_gpt_step gpt sug).response = "❌ Произошла ошибка") := by
  unfold chat_gpt_step
  rcases call_yandex_gpt_fail gpt h with hc | ⟨a, ha, hc⟩
  · rw [hc]
    dsimp only [chatCrash]
    exact ⟨by decide, fun habs => absurd habs (by decide), fun _ => rfl⟩
  · rw [hc]
    dsimp only
    refine ⟨?_, fun _ => ha, fun habs => absurd habs (by decide)⟩
    intro he
    rw [he] at ha
    revert ha
    decide

theorem chat_kb_step_fail (kb : List (String × String))
    (gpt : List HttpResult) (q : String) (sug : List SuggestionOut)
    (h : ∀ r ∈ gpt, isGptFailure r = true) :
    (chat_kb_step kb gpt q sug).response ≠ "" ∧
      ((chat_kb_step kb gpt q sug).source = "yandex_gpt" →
        (chat_kb_step kb gpt q sug).response ∈ gptApologies) ∧
      ((chat_kb_step kb gpt q sug).source = "error" →
        (chat_kb_step kb gpt q sug).response = "❌ Произошла ошибка") := by
  unfold chat_kb_step
  cases hf : find_in_knowledge_base kb q with
  | some a =>
    dsimp only
    by_cases ha : a = ""
    · rw [if_pos ha]
      exact chat_gpt_step_fail gpt sug h
    · rw [if_neg ha]
      dsimp only
      exact ⟨ha, fun habs => absurd habs (by decide),
        fun habs => absurd habs (by decide)⟩
  | none => exact chat_gpt_step_fail gpt sug h

/-- C5, counterexample.  An auth failure of the generator (HTTP 401) is
converted inside `call_yandex_gpt` into an apology string which the chat
route returns with source `"yandex_gpt"` — not `"error"` as the claim
says. -/
theorem C5_counterexample :
    (chat [] [] [] [HttpResult.status 401] ("вопрос")).response =
        "❌ Ошибка авторизации. Проверьте API-ключ." ∧
      (chat [] [] [] [HttpResult.status 401] ("вопрос")).source =
        "yandex_gpt" ∧
      "yandex_gpt" ≠ "error" := by
  decide

/-- C5, amended: when every attempt of the external generator fails (any
mix of network errors, non-200 statuses, and malformed 200 bodies), the
chat route still returns a non-empty response and never propagates the
failure; answers coming from the generator's handled failures (network,
auth, quota, retries exhausted) are one of the three non-empty apology
strings tagged `"yandex_gpt"`, while a raised exception is caught by the
route's outer `try` and surfaced as the non-empty string
`"❌ Произошла ошибка"` tagged `"error"` (the empty-input prompt is the
only other `"error"` response). -/
theorem C5_generator_failure_amended (kb : List (String × String))
    (menu : List MenuItem) (sugMap : List (String × List Suggestion))
    (gpt : List HttpResult) (msg : String)
    (h : ∀ r ∈ gpt, isGptFailure r = true) :
    (chat kb menu sugMap gpt msg).response ≠ "" ∧
      ((chat kb menu sugMap gpt msg).source = "yandex_gpt" →
        (chat kb menu sugMap gpt msg).response ∈ gptApologies) ∧
      ((chat kb menu sugMap gpt msg).source = "error" →
        (chat kb menu sugMap gpt msg).response = emptyPrompt ∨
        (chat kb menu sugMap gpt msg).response = "❌ Произошла ошибка") := by
  unfold chat
  by_cases hq : pyStrip msg = ""
  · rw [if_pos hq]
    dsimp only
    exact ⟨by decide, fun habs => absurd habs (by decide), fun _ => Or.inl rfl⟩
  · rw [if_neg hq]
    have hdef : ∀ kbx : List (String × String),
        (chat_default kbx sugMap gpt (pyStrip msg)).response ≠ "" ∧
        ((chat_default kbx sugMap gpt (pyStrip msg)).source = "yandex_gpt" →
          (chat_default kbx sugMap gpt (pyStrip msg)).response ∈ gptApologies) ∧
        ((chat_default kbx sugMap gpt (pyStrip msg)).source = "error" →
          (chat_default kbx sugMap gpt (pyStrip msg)).response = emptyPrompt ∨
          (chat_default kbx sugMap gpt (pyStrip msg)).response =
            "❌ Произошла ошибка") := by
      intro kbx
      unfold chat_default
      obtain ⟨h1, h2, h3⟩ := chat_kb_step_fail kbx gpt (pyStrip msg)
        (stripOut ((dictGet sugMap ("default")).getD [])) h
      exact ⟨h1, h2, fun hsrc => Or.inr (h3 hsrc)⟩
    cases hr : resolve_menu_topic menu (pyStrip msg) with
    | none => exact hdef kb
    | some t =>
      dsimp only
      by_cases ht : t = ""
      · rw [if_pos ht]
        exact hdef kb
      · rw [if_neg ht]
        unfold chat_topic
        dsimp only
        cases hs : findSuggestionAnswer ((dictGet sugMap t).getD [])
            (pyStrip msg) with
        | some a =>
          dsimp only
          by_cases ha : a = ""
          · rw [if_pos ha]
            obtain ⟨h1, h2, h3⟩ := chat_kb_step_fail kb gpt (pyStrip msg)
              (stripOut ((dictGet sugMap t).getD [])) h
            exact ⟨h1, h2, fun hsrc => Or.inr (h3 hsrc)⟩
          · rw [if_neg ha]
            dsimp only
            exact ⟨ha, fun habs => absurd habs (by decide),
              fun habs => absurd habs (by decide)⟩
        | none =>
          obtain ⟨h1, h2, h3⟩ := chat_kb_step_fail kb gpt (pyStrip msg)
            (stripOut ((dictGet sugMap t).getD [])) h
          exact ⟨h1, h2, fun hsrc => Or.inr (h3 hsrc)⟩

/-- Witness for the amended C5: a trace of three network failures, on a
question the empty base cannot answer. -/
theorem C5_witness :
    (chat [] [] [] [HttpResult.netError, HttpResult.netError,
        HttpResult.netError] ("вопрос")).response ≠ "" ∧
      ((chat [] [] [] [HttpResult.netError, HttpResult.netError,
          HttpResult.netError] ("вопрос")).source = "yandex_gpt" →
        (chat [] [] [] [HttpResult.netError, HttpResult.netError,
          HttpResult.netError] ("вопрос")).response ∈ gptApologies) ∧
      ((chat [] [] [] [HttpResult.netError, HttpResult.netError,
          HttpResult.netError] ("вопрос")).source = "error" →
        (chat [] [] [] [HttpResult.netError, HttpResult.netError,
          HttpResult.netError] ("вопрос")).response = emptyPrompt ∨
        (chat [] [] [] [HttpResult.netError, HttpResult.netError,
          HttpResult.netError] ("вопрос")).response = "❌ Произошла ошибка") :=
  C5_generator_failure_amended [] [] []
    [HttpResult.netError, HttpResult.netError, HttpResult.netError]
    ("вопрос") (by decide)
